import Mathlib

/-!
Verification of the plasmacleaner repository: a GTK program that sweeps a
vertical bar across the screen to mitigate plasma burn-in while suppressing
the screensaver.  The repository holds two variants of the program:
`plasmacleaner.c` (white bar, per-width cairo pattern rebuilt in `on_draw`,
bare `x++` in the timer and `x %= width` in the draw handler) and the
variant embedded in `unnamed/part_000` (blue-tinted bar, unit-width pattern
built once in `main`, `(x + 1) % width` with asserts in the timer, and a
proportional rescale of `x` on width change).  Namespace `PC` embeds the
former, namespace `P0` the latter.  Side effects on the GLib main loop and
on cairo (timer registration/removal, pattern creation/destruction, redraw
queuing, pointer warps) are made explicit as an `Effect` trace; GLib source
ids and cairo pattern identities are modelled by monotone counters in the
state, matching GLib's guarantee that source ids of live sources are unique.
-/

/-- Observable side effects of the handlers on the GLib main loop, cairo and
the X server.  `sourceRemove i` is `g_source_remove(i)`, `timeoutAdd ms i`
is `g_timeout_add(ms, ...)` returning source id `i`, `patternCreate` /
`patternDestroy` are `cairo_pattern_create_linear` / `cairo_pattern_destroy`
on the pattern with the given identity, `queueDraw` is
`gtk_widget_queue_draw`, `warpPointer dx dy` is the relative
`XWarpPointer` motion, and `quit` is `gtk_main_quit`. -/
inductive Effect where
  | sourceRemove (id : Nat)
  | timeoutAdd (intervalMs : Nat) (id : Nat)
  | patternCreate (id : Nat)
  | patternDestroy (id : Nat)
  | queueDraw
  | warpPointer (dx dy : Nat)
  | quit
deriving DecidableEq, Repr

/-- Number of milliseconds for the bar to move across the screen
(`static const guint PERIOD_MS = 4000`). -/
def PERIOD_MS : Nat := 4000

/-- How often to simulate mouse movement to suppress the screensaver
(`static const guint SCREENSAVER_SUPPRESSION_PERIOD_MS = 1000`). -/
def SCREENSAVER_SUPPRESSION_PERIOD_MS : Nat := 1000

/-- Bar width as a fraction of the screen width
(`static const double BAR_FRACTION = 3.0/8`; the double value is exactly
3/8). -/
def BAR_FRACTION : ℚ := 3 / 8

/-- Bar colour of the `part_000` variant (`BAR_COLOUR_R/G/B = 0.9, 0.9,
1.0`), denoted by the rationals the C literals denote. -/
def BAR_COLOUR_R : ℚ := 9 / 10

/-- Green component of the bar colour of the `part_000` variant. -/
def BAR_COLOUR_G : ℚ := 9 / 10

/-- Blue component of the bar colour of the `part_000` variant. -/
def BAR_COLOUR_B : ℚ := 1

/-- One firing of the repaint timer on the offset: increment and wrap
(`data->x = (data->x + 1) % data->width` in the `part_000` variant; the
`plasmacleaner.c` variant splits the same arithmetic into `data->x++` in
`on_draw_timer` and `data->x %= width` in `on_draw`). -/
def step (w x : Nat) : Nat := (x + 1) % w

/-- `iter w n x` is the offset after `n` firings of the repaint timer
starting from offset `x` at fixed width `w`. -/
def iter (w : Nat) : Nat → Nat → Nat
  | 0, x => x
  | n + 1, x => iter w n (step w x)

theorem iter_succ (w n x : Nat) : iter w (n + 1) x = iter w n (step w x) := rfl

/-- After at least one firing the offset is `(x + n) % w`, for every start
offset `x`. -/
theorem iter_eq_mod (w : Nat) : ∀ n x : Nat, 1 ≤ n → iter w n x = (x + n) % w := by
  intro n
  induction n with
  | zero => intro x h; omega
  | succ k ih =>
    intro x _
    rcases Nat.eq_zero_or_pos k with h0 | hk
    · subst h0
      simp [iter, step]
    · rw [iter_succ, ih (step w x) hk, step, Nat.mod_add_mod]
      congr 1
      omega

/-- From any residue `r < w` one can reach any target `y < w` in between 1
and `w` increment steps. -/
theorem exists_step_count (w r y : Nat) (hr : r < w) (hy : y < w) :
    ∃ n, 1 ≤ n ∧ n ≤ w ∧ (r + n) % w = y := by
  rcases Nat.lt_or_ge r y with h | h
  · refine ⟨y - r, by omega, by omega, ?_⟩
    rw [show r + (y - r) = y by omega]
    exact Nat.mod_eq_of_lt hy
  · refine ⟨w - r + y, by omega, by omega, ?_⟩
    rw [show r + (w - r + y) = w + y by omega, Nat.add_mod_left]
    exact Nat.mod_eq_of_lt hy

/-- Two distinct step counts in `[1, w]` give distinct offsets. -/
theorem mod_shift_ne (w x m n : Nat) (h1 : 1 ≤ m) (hmn : m < n) (hn : n ≤ w) :
    (x + m) % w ≠ (x + n) % w := by
  intro h
  have hmod : Nat.ModEq w (x + m) (x + n) := h
  have h2 : Nat.ModEq w m n := Nat.ModEq.add_left_cancel' x hmod
  have h3 : w ∣ n - m := (Nat.modEq_iff_dvd' (Nat.le_of_lt hmn)).mp h2
  have h4 : w ≤ n - m := Nat.le_of_dvd (by omega) h3
  omega

/-- One cairo colour stop, as added by `cairo_pattern_add_color_stop_rgb`:
an offset in `[0, 1]` along the gradient axis and an RGB colour.  The C
doubles are denoted by the rationals the literals denote. -/
structure ColorStop where
  offset : ℚ
  red : ℚ
  green : ℚ
  blue : ℚ
deriving DecidableEq, Repr

/-- A cairo linear gradient: the two endpoints passed to
`cairo_pattern_create_linear`, its colour stops in the order they were
added, and whether `CAIRO_EXTEND_REPEAT` was set. -/
structure LinearPattern where
  x0 : ℚ
  y0 : ℚ
  x1 : ℚ
  y1 : ℚ
  stops : List ColorStop
  extendRepeat : Bool
deriving DecidableEq, Repr

namespace PC

/-- Mutable program state of `plasmacleaner.c` (`struct data_t` without the
window handle): the cached pattern (by identity, `none` for `NULL`), the
repaint-timer source id (`0` for none), the bar offset `x` and the last
observed width.  `next_source_id` and `next_pattern_id` model the GLib /
cairo allocators: each registration returns a fresh identity.  In `main`
the screensaver-suppression timeout is registered first and receives source
id 1, so draw timeouts receive ids from 2 on. -/
structure data_t where
  pattern : Option Nat
  draw_timeout_id : Nat
  x : Nat
  last_width : Nat
  next_source_id : Nat
  next_pattern_id : Nat
deriving DecidableEq, Repr

/-- State at the start of `gtk_main`: `struct data_t data = {0}` with the
screensaver timeout already holding source id 1. -/
def init : data_t :=
  { pattern := none, draw_timeout_id := 0, x := 0, last_width := 0,
    next_source_id := 2, next_pattern_id := 1 }

/-- Embedding of `free_draw_timeout_and_pattern`: remove the draw timeout
if there is one and zero its id, then destroy the pattern if there is one
and null it. -/
def free_draw_timeout_and_pattern (d : data_t) : data_t × List Effect :=
  let p1 : data_t × List Effect :=
    if d.draw_timeout_id ≠ 0 then
      ({ d with draw_timeout_id := 0 }, [Effect.sourceRemove d.draw_timeout_id])
    else (d, [])
  match p1.1.pattern with
  | some pid => ({ p1.1 with pattern := none }, p1.2 ++ [Effect.patternDestroy pid])
  | none => (p1.1, p1.2)

/-- Embedding of `on_draw_timer`: `data->x++` and queue a redraw.  There is
no wrap and no width assertion in this variant. -/
def on_draw_timer (d : data_t) : data_t × List Effect :=
  ({ d with x := d.x + 1 }, [Effect.queueDraw])

/-- Width-change block of `on_draw` (lines 63-76): if the allocated width
differs from the stored one, free the old timeout and pattern, register a
new timeout at `PERIOD_MS / (double)width` milliseconds (the implicit
conversion of the quotient to `guint` truncates, so the interval is the
integer quotient), and build the new width-wide gradient. -/
def rebuild (w : Nat) (d : data_t) : data_t × List Effect :=
  if d.last_width ≠ w then
    let fr := free_draw_timeout_and_pattern d
    ({ fr.1 with
        draw_timeout_id := fr.1.next_source_id,
        next_source_id := fr.1.next_source_id + 1,
        pattern := some fr.1.next_pattern_id,
        next_pattern_id := fr.1.next_pattern_id + 1 },
     fr.2 ++ [Effect.timeoutAdd (PERIOD_MS / w) fr.1.next_source_id,
              Effect.patternCreate fr.1.next_pattern_id])
  else (d, [])

/-- Content of the gradient built by `on_draw` (lines 69-74): a linear
pattern from `(0, 0)` to `(width, 0)` with white stops at offsets `0` and
`BAR_FRACTION` and black stops at offsets `BAR_FRACTION` and `1`, extended
by repetition. -/
def build_pattern (w : Nat) : LinearPattern :=
  { x0 := 0, y0 := 0, x1 := (w : ℚ), y1 := 0,
    stops := [ { offset := 0, red := 1, green := 1, blue := 1 },
               { offset := BAR_FRACTION, red := 1, green := 1, blue := 1 },
               { offset := BAR_FRACTION, red := 0, green := 0, blue := 0 },
               { offset := 1, red := 0, green := 0, blue := 0 } ],
    extendRepeat := true }

/-- Embedding of `on_draw`: run the width-change block, store the width,
then `data->x %= width`.  When the allocated width is 0 the modulo divides
by zero (undefined behaviour in C), modelled as failure. -/
def on_draw (w : Nat) (d : data_t) : Option (data_t × List Effect) :=
  if w = 0 then none
  else
    let p := rebuild w d
    some ({ p.1 with last_width := w, x := p.1.x % w }, p.2)

/-- Embedding of `on_button_or_key_press`: `gtk_widget_destroy` runs the
`destroy` handler `on_destroy` synchronously, which frees the draw timeout
and the pattern and quits the main loop. -/
def on_button_or_key_press (d : data_t) : data_t × List Effect :=
  let fr := free_draw_timeout_and_pattern d
  (fr.1, fr.2 ++ [Effect.quit])

/-- A button or key press followed by the tail of `main` after `gtk_main`
returns: remove the screensaver-suppression timeout `sst` and return exit
status 0. -/
def press_and_exit (d : data_t) (sst : Nat) : data_t × List Effect × Nat :=
  let r := on_button_or_key_press d
  (r.1, r.2 ++ [Effect.sourceRemove sst], 0)

/-- Reachability of a state together with its accumulated effect trace,
under any interleaving of timer firings, draw events at arbitrary nonzero
widths, and button/key presses. -/
inductive ReachT : data_t → List Effect → Prop where
  | base : ReachT init []
  | timer {d tr d' e} : ReachT d tr → on_draw_timer d = (d', e) → ReachT d' (tr ++ e)
  | draw {d tr w d' e} : ReachT d tr → on_draw w d = some (d', e) → ReachT d' (tr ++ e)
  | press {d tr d' e} : ReachT d tr → on_button_or_key_press d = (d', e) →
      ReachT d' (tr ++ e)

/-- Source ids passed to `g_source_remove` along a trace. -/
def removedIds (tr : List Effect) : List Nat :=
  tr.filterMap fun e =>
    match e with
    | Effect.sourceRemove i => some i
    | _ => none

/-- Pattern identities passed to `cairo_pattern_destroy` along a trace. -/
def destroyedPatternIds (tr : List Effect) : List Nat :=
  tr.filterMap fun e =>
    match e with
    | Effect.patternDestroy i => some i
    | _ => none

end PC

/-- Embedding of `on_screensaver_suppression_timer` (identical in both
variants): fetch the X display; `assert(display)` aborts the process when
the display is unavailable (input `none`, result `none`); otherwise issue
`XWarpPointer(display, None, None, 0, 0, 0, 0, 0, 0)` — a relative pointer
motion of zero pixels — and return `TRUE` so the timer keeps firing. -/
def on_screensaver_suppression_timer (display : Option Nat) : Option (List Effect) :=
  match display with
  | none => none
  | some _ => some [Effect.warpPointer 0 0]

namespace P0

/-- Mutable program state of the `part_000` variant (`struct data_t`
without the window handle): the unit-width pattern built once in `main`
(by identity), the repaint-timer source id (`0` for none), the registered
timer interval, the bar offset `x` and the stored width (`int`, observed
widths are positive).  `next_source_id` models the GLib source-id
allocator; the screensaver-suppression timeout is registered in `main` and
receives source id 1, so draw timeouts receive ids from 2 on. -/
structure data_t where
  pattern : Nat
  draw_timeout_id : Nat
  draw_timeout_interval : Nat
  x : Nat
  width : Nat
  next_source_id : Nat
deriving DecidableEq, Repr

/-- State at the start of `gtk_main`: `struct data_t data = {0}` with the
pattern (identity 1) built in `main` and the screensaver timeout holding
source id 1. -/
def init : data_t :=
  { pattern := 1, draw_timeout_id := 0, draw_timeout_interval := 0,
    x := 0, width := 0, next_source_id := 2 }

/-- Embedding of `free_draw_timeout`: remove the draw timeout if there is
one and zero its id. -/
def free_draw_timeout (d : data_t) : data_t × List Effect :=
  if d.draw_timeout_id ≠ 0 then
    ({ d with draw_timeout_id := 0 }, [Effect.sourceRemove d.draw_timeout_id])
  else (d, [])

/-- Embedding of `on_draw_timer`: `assert(data->width)` (failure modelled
as `none`), then `data->x = (data->x + 1) % data->width` and queue a
redraw. -/
def on_draw_timer (d : data_t) : Option (data_t × List Effect) :=
  if d.width = 0 then none
  else some ({ d with x := (d.x + 1) % d.width }, [Effect.queueDraw])

/-- Repaint interval computed by `on_draw`:
`guint draw_timeout_interval = PERIOD_MS / width`, C unsigned integer
division, truncating. -/
def repaint_interval (w : Nat) : Nat := PERIOD_MS / w

/-- Timer block of `on_draw` ("(Re-)register draw timeout if interval has
changed."): if the computed interval differs from the stored one, free the
old timeout, register a new one at the computed interval and store it. -/
def update_draw_timeout (w : Nat) (d : data_t) : data_t × List Effect :=
  if d.draw_timeout_interval ≠ repaint_interval w then
    let fr := free_draw_timeout d
    ({ fr.1 with
        draw_timeout_id := fr.1.next_source_id,
        draw_timeout_interval := repaint_interval w,
        next_source_id := fr.1.next_source_id + 1 },
     fr.2 ++ [Effect.timeoutAdd (repaint_interval w) fr.1.next_source_id])
  else (d, [])

/-- Width block of `on_draw` ("Scale x if width changed."): on a width
change, rescale `x` by `data->x * width / data->width` when the old width
was nonzero (C unsigned division, truncating), and store the new width. -/
def scale_x (w : Nat) (d : data_t) : data_t :=
  if d.width ≠ w then
    { d with x := if d.width ≠ 0 then d.x * w / d.width else d.x, width := w }
  else d

/-- Embedding of `on_draw`: `assert(width)` (failure modelled as `none`),
then the timer block followed by the width block; drawing itself
(translate by `x`, scale by `width`, paint the unit pattern) touches no
state. -/
def on_draw (w : Nat) (d : data_t) : Option (data_t × List Effect) :=
  if w = 0 then none
  else
    let p := update_draw_timeout w d
    some (scale_x w p.1, p.2)

/-- Embedding of `on_button_or_key_press`: `gtk_widget_destroy` runs
`on_destroy` synchronously, which frees the draw timeout and quits the
main loop. -/
def on_button_or_key_press (d : data_t) : data_t × List Effect :=
  let fr := free_draw_timeout d
  (fr.1, fr.2 ++ [Effect.quit])

/-- A button or key press followed by the tail of `main` after `gtk_main`
returns: remove the screensaver-suppression timeout `sst`, destroy the
pattern, and return exit status 0. -/
def press_and_exit (d : data_t) (sst : Nat) : data_t × List Effect × Nat :=
  let r := on_button_or_key_press d
  (r.1, r.2 ++ [Effect.sourceRemove sst, Effect.patternDestroy r.1.pattern], 0)

/-- Content of the gradient built once in `main`: a unit-width linear
pattern from `(0, 0)` to `(1, 0)` with the bar colour at offsets `0` and
`BAR_FRACTION` and black at offsets `BAR_FRACTION` and `1`, extended by
repetition. -/
def pattern : LinearPattern :=
  { x0 := 0, y0 := 0, x1 := 1, y1 := 0,
    stops := [ { offset := 0, red := BAR_COLOUR_R, green := BAR_COLOUR_G,
                 blue := BAR_COLOUR_B },
               { offset := BAR_FRACTION, red := BAR_COLOUR_R,
                 green := BAR_COLOUR_G, blue := BAR_COLOUR_B },
               { offset := BAR_FRACTION, red := 0, green := 0, blue := 0 },
               { offset := 1, red := 0, green := 0, blue := 0 } ],
    extendRepeat := true }

/-- States reachable from `init` under any interleaving of timer firings,
draw events at arbitrary widths, and button/key presses. -/
inductive Reach : data_t → Prop where
  | base : Reach init
  | timer {d d' e} : Reach d → on_draw_timer d = some (d', e) → Reach d'
  | draw {d w d' e} : Reach d → on_draw w d = some (d', e) → Reach d'
  | press {d} : Reach d → Reach (on_button_or_key_press d).1

/-- Inductive state invariant of the `part_000` variant: before the first
draw the offset is 0; once the width is set the offset stays below it and
the stored timer interval agrees with the width. -/
def Inv (d : data_t) : Prop :=
  (d.width = 0 → d.x = 0) ∧ (0 < d.width → d.x < d.width) ∧
  (d.width ≠ 0 → d.draw_timeout_interval = repaint_interval d.width)

theorem free_draw_timeout_fst (d : data_t) :
    (free_draw_timeout d).1 = { d with draw_timeout_id := 0 } := by
  unfold free_draw_timeout
  split
  · rfl
  · next h =>
    push_neg at h
    cases d
    simp_all

theorem update_draw_timeout_x (w : Nat) (d : data_t) :
    (update_draw_timeout w d).1.x = d.x := by
  unfold update_draw_timeout
  split
  · dsimp only
    rw [free_draw_timeout_fst]
  · rfl

theorem update_draw_timeout_width (w : Nat) (d : data_t) :
    (update_draw_timeout w d).1.width = d.width := by
  unfold update_draw_timeout
  split
  · dsimp only
    rw [free_draw_timeout_fst]
  · rfl

theorem update_draw_timeout_interval (w : Nat) (d : data_t) :
    (update_draw_timeout w d).1.draw_timeout_interval = repaint_interval w := by
  unfold update_draw_timeout
  split
  · dsimp only
  · next h =>
    push_neg at h
    exact h

/-- Preservation of the invariant by a successful draw at width `w`. -/
theorem inv_on_draw {w : Nat} {d d' : data_t} {e : List Effect}
    (hinv : Inv d) (h : on_draw w d = some (d', e)) : Inv d' := by
  unfold on_draw at h
  split at h
  · exact absurd h (by simp)
  · next hw =>
    obtain ⟨h1, h2, _⟩ := hinv
    dsimp only at h
    rw [Option.some.injEq, Prod.mk.injEq] at h
    obtain ⟨hd, -⟩ := h
    subst hd
    unfold scale_x
    split
    · next hne =>
      rw [update_draw_timeout_width] at hne
      unfold Inv
      dsimp only
      refine ⟨fun hc => absurd hc hw, fun _ => ?_, fun _ => update_draw_timeout_interval w d⟩
      rw [update_draw_timeout_width, update_draw_timeout_x]
      split
      · next hd0 =>
        have hd0' : 0 < d.width := Nat.pos_of_ne_zero hd0
        have hx : d.x < d.width := h2 hd0'
        have hw' : 0 < w := Nat.pos_of_ne_zero hw
        rw [Nat.div_lt_iff_lt_mul hd0']
        calc d.x * w < d.width * w := (Nat.mul_lt_mul_right hw').mpr hx
          _ = w * d.width := Nat.mul_comm _ _
      · next hd0 =>
        push_neg at hd0
        have := h1 hd0
        omega
    · next hne =>
      rw [update_draw_timeout_width] at hne
      push_neg at hne
      unfold Inv
      rw [update_draw_timeout_width, update_draw_timeout_x, update_draw_timeout_interval]
      exact ⟨h1, h2, fun _ => by rw [hne]⟩

/-- Every reachable state of the `part_000` variant satisfies the
invariant. -/
theorem reach_inv {d : data_t} (h : Reach d) : Inv d := by
  induction h with
  | base => exact ⟨fun _ => rfl, fun h => absurd h (by decide), fun hc => absurd rfl hc⟩
  | timer _ heq ih =>
    unfold on_draw_timer at heq
    split at heq
    · exact absurd heq (by simp)
    · next hw =>
      rw [Option.some.injEq, Prod.mk.injEq] at heq
      obtain ⟨h, -⟩ := heq
      subst h
      obtain ⟨_, _, h3⟩ := ih
      exact ⟨fun hc => absurd hc hw,
             fun _ => Nat.mod_lt _ (Nat.pos_of_ne_zero hw),
             fun hc => h3 hc⟩
  | draw _ heq ih => exact inv_on_draw ih heq
  | press _ ih =>
    unfold on_button_or_key_press
    rw [free_draw_timeout_fst]
    exact ih

end P0

namespace PC

theorem removedIds_append (a b : List Effect) :
    removedIds (a ++ b) = removedIds a ++ removedIds b :=
  List.filterMap_append a b _

theorem destroyedPatternIds_append (a b : List Effect) :
    destroyedPatternIds (a ++ b) = destroyedPatternIds a ++ destroyedPatternIds b :=
  List.filterMap_append a b _

theorem removedIds_nil : removedIds [] = [] := rfl

theorem destroyedPatternIds_nil : destroyedPatternIds [] = [] := rfl

theorem removedIds_sourceRemove (i : Nat) :
    removedIds [Effect.sourceRemove i] = [i] := rfl

theorem removedIds_patternDestroy (p : Nat) :
    removedIds [Effect.patternDestroy p] = [] := rfl

theorem removedIds_timeoutAdd (ms i : Nat) :
    removedIds [Effect.timeoutAdd ms i] = [] := rfl

theorem removedIds_patternCreate (p : Nat) :
    removedIds [Effect.patternCreate p] = [] := rfl

theorem removedIds_queueDraw : removedIds [Effect.queueDraw] = [] := rfl

theorem removedIds_quit : removedIds [Effect.quit] = [] := rfl

theorem destroyedPatternIds_sourceRemove (i : Nat) :
    destroyedPatternIds [Effect.sourceRemove i] = [] := rfl

theorem destroyedPatternIds_patternDestroy (p : Nat) :
    destroyedPatternIds [Effect.patternDestroy p] = [p] := rfl

theorem destroyedPatternIds_timeoutAdd (ms i : Nat) :
    destroyedPatternIds [Effect.timeoutAdd ms i] = [] := rfl

theorem destroyedPatternIds_patternCreate (p : Nat) :
    destroyedPatternIds [Effect.patternCreate p] = [] := rfl

theorem destroyedPatternIds_queueDraw : destroyedPatternIds [Effect.queueDraw] = [] := rfl

theorem destroyedPatternIds_quit : destroyedPatternIds [Effect.quit] = [] := rfl

/-- Characterization of `free_draw_timeout_and_pattern`: it zeroes the
timeout id, nulls the pattern, leaves everything else unchanged, and emits
one removal per held resource. -/
theorem free_spec (d : data_t) :
    (free_draw_timeout_and_pattern d).1
        = { d with draw_timeout_id := 0, pattern := none }
    ∧ (free_draw_timeout_and_pattern d).2
        = (if d.draw_timeout_id ≠ 0 then [Effect.sourceRemove d.draw_timeout_id]
           else [])
          ++ (match d.pattern with
              | some p => [Effect.patternDestroy p]
              | none => []) := by
  rcases d with ⟨pat, tid, x, lw, ns, np⟩
  rcases pat with _ | p <;> by_cases hid : tid = 0 <;>
    simp [free_draw_timeout_and_pattern, hid]

/-- Calling `free_draw_timeout_and_pattern` a second time releases nothing
and changes nothing. -/
theorem free_idem (d : data_t) :
    free_draw_timeout_and_pattern (free_draw_timeout_and_pattern d).1
      = ((free_draw_timeout_and_pattern d).1, []) := by
  obtain ⟨hfst, -⟩ := free_spec d
  rw [hfst]
  unfold free_draw_timeout_and_pattern
  simp

/-- Inductive trace invariant of `plasmacleaner.c`: every source id and
pattern identity released so far was released exactly once, allocated ids
are fresh, and the currently held timeout id and pattern identity have not
been released. -/
def TraceInv (d : data_t) (tr : List Effect) : Prop :=
  (removedIds tr).Nodup ∧ (destroyedPatternIds tr).Nodup
  ∧ (∀ i ∈ removedIds tr, i < d.next_source_id)
  ∧ (d.draw_timeout_id = 0 ∨
      (d.draw_timeout_id < d.next_source_id ∧ d.draw_timeout_id ∉ removedIds tr))
  ∧ (∀ j ∈ destroyedPatternIds tr, j < d.next_pattern_id)
  ∧ (∀ p, d.pattern = some p → p < d.next_pattern_id ∧ p ∉ destroyedPatternIds tr)

theorem nodup_snoc {α : Type} {l : List α} {a : α} (h : l.Nodup) (ha : a ∉ l) :
    (l ++ [a]).Nodup :=
  h.append (List.nodup_singleton a)
    (fun x hx hxa => ha (by rwa [List.mem_singleton.mp hxa] at hx))

theorem removedIds_sourceRemove_patternDestroy (i p : Nat) :
    removedIds [Effect.sourceRemove i, Effect.patternDestroy p] = [i] := rfl

theorem destroyedPatternIds_sourceRemove_patternDestroy (i p : Nat) :
    destroyedPatternIds [Effect.sourceRemove i, Effect.patternDestroy p] = [p] := rfl

theorem traceInv_free {d : data_t} {tr : List Effect} (h : TraceInv d tr) :
    TraceInv (free_draw_timeout_and_pattern d).1
      (tr ++ (free_draw_timeout_and_pattern d).2) := by
  obtain ⟨n1, n2, b1, b2, b3, b4⟩ := h
  rcases d with ⟨pat, tid, x, lw, ns, np⟩
  by_cases hid : tid = 0
  · subst hid
    rcases pat with _ | p
    · have heq : free_draw_timeout_and_pattern ⟨none, 0, x, lw, ns, np⟩
          = (⟨none, 0, x, lw, ns, np⟩, []) := by
        simp [free_draw_timeout_and_pattern]
      rw [heq, List.append_nil]
      exact ⟨n1, n2, b1, Or.inl rfl, b3, fun q hq => nomatch hq⟩
    · have heq : free_draw_timeout_and_pattern ⟨some p, 0, x, lw, ns, np⟩
          = (⟨none, 0, x, lw, ns, np⟩, [Effect.patternDestroy p]) := by
        simp [free_draw_timeout_and_pattern]
      rw [heq]
      refine ⟨?_, ?_, ?_, Or.inl rfl, ?_, fun q hq => nomatch hq⟩
      · rw [removedIds_append, removedIds_patternDestroy, List.append_nil]
        exact n1
      · rw [destroyedPatternIds_append, destroyedPatternIds_patternDestroy]
        exact nodup_snoc n2 (b4 p rfl).2
      · rw [removedIds_append, removedIds_patternDestroy, List.append_nil]
        exact b1
      · rw [destroyedPatternIds_append, destroyedPatternIds_patternDestroy]
        intro j hj
        rcases List.mem_append.mp hj with hj | hj
        · exact b3 j hj
        · rw [List.mem_singleton.mp hj]
          exact (b4 p rfl).1
  · rcases b2 with h0 | ⟨hlt, hmem⟩
    · exact absurd h0 hid
    rcases pat with _ | p
    · have heq : free_draw_timeout_and_pattern ⟨none, tid, x, lw, ns, np⟩
          = (⟨none, 0, x, lw, ns, np⟩, [Effect.sourceRemove tid]) := by
        simp [free_draw_timeout_and_pattern, hid]
      rw [heq]
      refine ⟨?_, ?_, ?_, Or.inl rfl, ?_, fun q hq => nomatch hq⟩
      · rw [removedIds_append, removedIds_sourceRemove]
        exact nodup_snoc n1 hmem
      · rw [destroyedPatternIds_append, destroyedPatternIds_sourceRemove,
          List.append_nil]
        exact n2
      · rw [removedIds_append, removedIds_sourceRemove]
        intro i hi
        rcases List.mem_append.mp hi with hi | hi
        · exact b1 i hi
        · rw [List.mem_singleton.mp hi]
          exact hlt
      · rw [destroyedPatternIds_append, destroyedPatternIds_sourceRemove,
          List.append_nil]
        exact b3
    · have heq : free_draw_timeout_and_pattern ⟨some p, tid, x, lw, ns, np⟩
          = (⟨none, 0, x, lw, ns, np⟩,
             [Effect.sourceRemove tid, Effect.patternDestroy p]) := by
        simp [free_draw_timeout_and_pattern, hid]
      rw [heq]
      refine ⟨?_, ?_, ?_, Or.inl rfl, ?_, fun q hq => nomatch hq⟩
      · rw [removedIds_append, removedIds_sourceRemove_patternDestroy]
        exact nodup_snoc n1 hmem
      · rw [destroyedPatternIds_append,
          destroyedPatternIds_sourceRemove_patternDestroy]
        exact nodup_snoc n2 (b4 p rfl).2
      · rw [removedIds_append, removedIds_sourceRemove_patternDestroy]
        intro i hi
        rcases List.mem_append.mp hi with hi | hi
        · exact b1 i hi
        · rw [List.mem_singleton.mp hi]
          exact hlt
      · rw [destroyedPatternIds_append,
          destroyedPatternIds_sourceRemove_patternDestroy]
        intro j hj
        rcases List.mem_append.mp hj with hj | hj
        · exact b3 j hj
        · rw [List.mem_singleton.mp hj]
          exact (b4 p rfl).1

end PC

namespace PC

theorem removedIds_timeoutAdd_patternCreate (ms i p : Nat) :
    removedIds [Effect.timeoutAdd ms i, Effect.patternCreate p] = [] := rfl

theorem destroyedPatternIds_timeoutAdd_patternCreate (ms i p : Nat) :
    destroyedPatternIds [Effect.timeoutAdd ms i, Effect.patternCreate p] = [] := rfl

/-- Appending effects that release nothing preserves the trace invariant. -/
theorem traceInv_append_none {d : data_t} {tr e : List Effect}
    (h : TraceInv d tr) (hr : removedIds e = [])
    (hp : destroyedPatternIds e = []) : TraceInv d (tr ++ e) := by
  obtain ⟨n1, n2, b1, b2, b3, b4⟩ := h
  refine ⟨?_, ?_, ?_, ?_, ?_, ?_⟩
  · rw [removedIds_append, hr, List.append_nil]; exact n1
  · rw [destroyedPatternIds_append, hp, List.append_nil]; exact n2
  · rw [removedIds_append, hr, List.append_nil]; exact b1
  · rw [removedIds_append, hr, List.append_nil]; exact b2
  · rw [destroyedPatternIds_append, hp, List.append_nil]; exact b3
  · rw [destroyedPatternIds_append, hp, List.append_nil]; exact b4

theorem traceInv_timer {d : data_t} {tr : List Effect} (h : TraceInv d tr) :
    TraceInv (on_draw_timer d).1 (tr ++ (on_draw_timer d).2) :=
  traceInv_append_none h removedIds_queueDraw destroyedPatternIds_queueDraw

theorem traceInv_press {d : data_t} {tr : List Effect} (h : TraceInv d tr) :
    TraceInv (on_button_or_key_press d).1 (tr ++ (on_button_or_key_press d).2) := by
  unfold on_button_or_key_press
  dsimp only
  rw [← List.append_assoc]
  exact traceInv_append_none (traceInv_free h) removedIds_quit destroyedPatternIds_quit

theorem traceInv_rebuild {w : Nat} {d : data_t} {tr : List Effect}
    (h : TraceInv d tr) :
    TraceInv (rebuild w d).1 (tr ++ (rebuild w d).2) := by
  unfold rebuild
  split
  · dsimp only
    obtain ⟨n1, n2, b1, -, b3, -⟩ := traceInv_free h
    rw [← List.append_assoc]
    unfold TraceInv
    dsimp only
    rw [removedIds_append, removedIds_timeoutAdd_patternCreate, List.append_nil,
      destroyedPatternIds_append, destroyedPatternIds_timeoutAdd_patternCreate,
      List.append_nil]
    refine ⟨n1, n2, ?_, ?_, ?_, ?_⟩
    · intro i hi
      have := b1 i hi
      omega
    · refine Or.inr ⟨Nat.lt_succ_self _, fun hmem => ?_⟩
      have := b1 _ hmem
      omega
    · intro j hj
      have := b3 j hj
      omega
    · intro q hq
      injection hq with hq
      subst hq
      refine ⟨Nat.lt_succ_self _, fun hmem => ?_⟩
      have := b3 _ hmem
      omega
  · rw [List.append_nil]
    exact h

theorem traceInv_on_draw {w : Nat} {d d' : data_t} {e tr : List Effect}
    (heq : on_draw w d = some (d', e)) (h : TraceInv d tr) :
    TraceInv d' (tr ++ e) := by
  unfold on_draw at heq
  split at heq
  · exact absurd heq (by simp)
  · dsimp only at heq
    rw [Option.some.injEq, Prod.mk.injEq] at heq
    obtain ⟨hd, he⟩ := heq
    subst hd
    subst he
    exact traceInv_rebuild h

/-- Along every reachable execution of `plasmacleaner.c` the trace
invariant holds; in particular no source id and no pattern identity is
ever released twice. -/
theorem traceInv_reach {d : data_t} {tr : List Effect} (h : ReachT d tr) :
    TraceInv d tr := by
  induction h with
  | base =>
    refine ⟨?_, ?_, ?_, Or.inl rfl, ?_, ?_⟩
    · rw [removedIds_nil]; exact List.nodup_nil
    · rw [destroyedPatternIds_nil]; exact List.nodup_nil
    · intro i hi
      rw [removedIds_nil] at hi
      cases hi
    · intro j hj
      rw [destroyedPatternIds_nil] at hj
      cases hj
    · intro p hp
      exact Option.noConfusion (show (none : Option Nat) = some p from hp)
  | timer h' heq ih =>
    have h2 := traceInv_timer ih
    rw [heq] at h2
    exact h2
  | draw h' heq ih => exact traceInv_on_draw heq ih
  | press h' heq ih =>
    have h2 := traceInv_press ih
    rw [heq] at h2
    exact h2

end PC

namespace P0

theorem scale_x_draw_timeout_interval (w : Nat) (d : data_t) :
    (scale_x w d).draw_timeout_interval = d.draw_timeout_interval := by
  unfold scale_x
  split <;> rfl

theorem scale_x_draw_timeout_id (w : Nat) (d : data_t) :
    (scale_x w d).draw_timeout_id = d.draw_timeout_id := by
  unfold scale_x
  split <;> rfl

theorem update_draw_timeout_pos (w : Nat) (d : data_t)
    (hch : d.draw_timeout_interval ≠ repaint_interval w) :
    update_draw_timeout w d
      = ({ (free_draw_timeout d).1 with
            draw_timeout_id := (free_draw_timeout d).1.next_source_id,
            draw_timeout_interval := repaint_interval w,
            next_source_id := (free_draw_timeout d).1.next_source_id + 1 },
         (free_draw_timeout d).2
           ++ [Effect.timeoutAdd (repaint_interval w)
                (free_draw_timeout d).1.next_source_id]) := by
  unfold update_draw_timeout
  rw [if_pos hch]

end P0

/-- Claim C1: for every width `w > 0` and every start offset `x`, repeated
application of the increment-and-wrap step `offset := (offset + 1) mod w`
visits each value of `[0, w)` exactly once during the steps `1..w` before
repeating: the sequence is periodic of period exactly `w` steps (no smaller
positive period). -/
theorem claim1_increment_wrap_period (w x : Nat) (hw : 0 < w) :
    (∀ y, y < w → ∃ n, 1 ≤ n ∧ n ≤ w ∧ iter w n x = y)
    ∧ (∀ m n, 1 ≤ m → m < n → n ≤ w → iter w m x ≠ iter w n x)
    ∧ (∀ n, 1 ≤ n → iter w (n + w) x = iter w n x)
    ∧ (∀ p, 1 ≤ p → p < w → iter w (1 + p) x ≠ iter w 1 x) := by
  refine ⟨?_, ?_, ?_, ?_⟩
  · intro y hy
    obtain ⟨n, h1, h2, h3⟩ := exists_step_count w (x % w) y (Nat.mod_lt _ hw) hy
    refine ⟨n, h1, h2, ?_⟩
    rw [iter_eq_mod w n x h1, ← Nat.mod_add_mod, h3]
  · intro m n h1 hmn hn
    rw [iter_eq_mod w m x h1, iter_eq_mod w n x (by omega)]
    exact mod_shift_ne w x m n h1 hmn hn
  · intro n hn
    rw [iter_eq_mod w n x hn, iter_eq_mod w (n + w) x (by omega), ← Nat.add_assoc,
      Nat.add_mod_right]
  · intro p h1 hp
    rw [iter_eq_mod w (1 + p) x (by omega), iter_eq_mod w 1 x (by omega)]
    exact fun hc =>
      mod_shift_ne w x 1 (1 + p) (by omega) (by omega) (by omega) hc.symm

/-- Witness for C1 at `w = 3`, `x = 7`: some step count in `[1, 3]` reaches
offset 2. -/
theorem claim1_witness : 0 < 3 ∧ ∃ n, 1 ≤ n ∧ n ≤ 3 ∧ iter 3 n 7 = 2 :=
  ⟨by decide, (claim1_increment_wrap_period 3 7 (by decide)).1 2 (by decide)⟩

/-- Claim C2: on a width change from `w1 = d.width > 0` to `w2 > 0` with
stored offset `d.x < w1`, `on_draw` of the `part_000` variant sets the new
offset to `d.x * w2 / w1` (C unsigned division, i.e. the floor of the
rational product), and the new offset lies in `[0, w2)`. -/
theorem claim2_rescale_proportional (d : P0.data_t) (w2 : Nat)
    (h1 : 0 < d.width) (h2 : 0 < w2) (h3 : d.x < d.width) :
    ∃ d' e, P0.on_draw w2 d = some (d', e)
      ∧ d'.x = d.x * w2 / d.width ∧ d'.x < w2 ∧ d'.width = w2 := by
  have hx := P0.update_draw_timeout_x w2 d
  have hw := P0.update_draw_timeout_width w2 d
  unfold P0.on_draw
  rw [if_neg (by omega)]
  dsimp only
  by_cases hne : d.width = w2
  · refine ⟨_, _, rfl, ?_, ?_, ?_⟩ <;>
      [skip; skip; skip] <;>
      unfold P0.scale_x <;> rw [if_neg (by rw [hw]; omega)]
    · rw [hx, ← hne, Nat.mul_div_left d.x h1]
    · rw [hx]
      omega
    · rw [hw]
      exact hne
  · refine ⟨_, _, rfl, ?_, ?_, ?_⟩ <;>
      unfold P0.scale_x <;> rw [if_pos (by rw [hw]; omega)] <;> dsimp only
    · rw [hw, hx, if_pos (by omega)]
    · rw [hw, hx, if_pos (by omega)]
      rw [Nat.div_lt_iff_lt_mul h1]
      calc d.x * w2 < d.width * w2 := (Nat.mul_lt_mul_right h2).mpr h3
        _ = w2 * d.width := Nat.mul_comm _ _

/-- Witness for C2: the spec's end-to-end scenario 2 — width change from
800 to 1600 with offset 400 gives new offset `400 * 1600 / 800 = 800`. -/
theorem claim2_witness :
    ∃ d' e, P0.on_draw 1600 ⟨1, 2, 5, 400, 800, 3⟩ = some (d', e)
      ∧ d'.x = 400 * 1600 / 800 ∧ d'.x < 1600 ∧ d'.width = 1600 :=
  claim2_rescale_proportional ⟨1, 2, 5, 400, 800, 3⟩ 1600 (by decide) (by decide)
    (by decide)

/-- Counterexample for claim C3: the code does not clamp sub-millisecond
intervals.  From a state at width 800 (stored interval 5 ms), a draw at
width 4001 > PERIOD_MS removes the old timer and registers the new repaint
timer with interval `PERIOD_MS / 4001 = 0` ms (the `timeoutAdd 0 3` effect)
— not the claimed minimum schedulable interval of 1 ms. -/
theorem claim3_counterexample :
    P0.on_draw 4001 ⟨1, 2, 5, 100, 800, 3⟩
      = some (⟨1, 3, 0, 500, 4001, 4⟩,
              [Effect.sourceRemove 2, Effect.timeoutAdd 0 3])
    ∧ P0.repaint_interval 4001 = 0 ∧ (0 : Nat) ≠ 1 :=
  ⟨by decide, by decide, by decide⟩

/-- Claim C3 amended: for every `newWidth > 0`, `on_draw` computes the
repaint interval as the truncating integer division `PERIOD_MS / newWidth`
(PERIOD_MS = 4000) and, when the interval changed, registers the repaint
timer with exactly that value; when `newWidth > PERIOD_MS` the quotient —
and hence the registered interval — is 0 ms, with no clamping to 1 ms; for
width 800 the interval is 5 ms. -/
theorem claim3_amended_interval (w : Nat) (d : P0.data_t) (hw : 0 < w)
    (hch : d.draw_timeout_interval ≠ P0.repaint_interval w) :
    ∃ d' e, P0.on_draw w d = some (d', e)
      ∧ d'.draw_timeout_interval = PERIOD_MS / w
      ∧ Effect.timeoutAdd (PERIOD_MS / w) d'.draw_timeout_id ∈ e
      ∧ (PERIOD_MS < w → PERIOD_MS / w = 0)
      ∧ PERIOD_MS / 800 = 5 := by
  unfold P0.on_draw
  rw [if_neg (by omega)]
  dsimp only
  refine ⟨_, _, rfl, ?_, ?_, fun hlt => Nat.div_eq_of_lt hlt, by decide⟩
  · rw [P0.scale_x_draw_timeout_interval, P0.update_draw_timeout_pos w d hch]
    rfl
  · rw [P0.scale_x_draw_timeout_id, P0.update_draw_timeout_pos w d hch]
    dsimp only
    exact List.mem_append_right _ (List.mem_singleton_self _)

/-- Witness for the amended C3 at width 800 from the initial state. -/
theorem claim3_witness :
    ∃ d' e, P0.on_draw 800 P0.init = some (d', e)
      ∧ d'.draw_timeout_interval = PERIOD_MS / 800
      ∧ Effect.timeoutAdd (PERIOD_MS / 800) d'.draw_timeout_id ∈ e
      ∧ (PERIOD_MS < 800 → PERIOD_MS / 800 = 0)
      ∧ PERIOD_MS / 800 = 5 :=
  claim3_amended_interval 800 P0.init (by decide) (by decide)

/-- Claim C5: the repaint-timer handler of the `part_000` variant
increments the offset and wraps it modulo the width, leaving it below the
width; it asserts (fails) when the width is 0; under the precondition that
the width is positive, the assertion and the division by zero in the
modulo are unreachable and the handler queues a redraw. -/
theorem claim5_timer_step (d : P0.data_t) :
    (d.width = 0 → P0.on_draw_timer d = none)
    ∧ (0 < d.width →
        ∃ d', P0.on_draw_timer d = some (d', [Effect.queueDraw])
          ∧ d'.x = (d.x + 1) % d.width ∧ d'.x < d.width ∧ d'.width = d.width) := by
  constructor
  · intro h0
    unfold P0.on_draw_timer
    rw [if_pos h0]
  · intro hpos
    unfold P0.on_draw_timer
    rw [if_neg (by omega)]
    exact ⟨_, rfl, rfl, Nat.mod_lt _ hpos, rfl⟩

/-- Witness for C5: at width 0 the handler fails; at width 800 with offset
799 it wraps to 0 and stays below the width. -/
theorem claim5_witness :
    P0.on_draw_timer ⟨1, 0, 0, 7, 0, 2⟩ = none
    ∧ ∃ d', P0.on_draw_timer ⟨1, 2, 5, 799, 800, 3⟩ = some (d', [Effect.queueDraw])
        ∧ d'.x = (799 + 1) % 800 ∧ d'.x < 800 ∧ d'.width = 800 :=
  ⟨(claim5_timer_step ⟨1, 0, 0, 7, 0, 2⟩).1 rfl,
   (claim5_timer_step ⟨1, 2, 5, 799, 800, 3⟩).2 (by decide)⟩

namespace P0

/-- First draw of the `part_000` variant at width 800: registers the 5 ms
repaint timer and stores the width. -/
theorem first_draw_800 :
    on_draw 800 init = some (⟨1, 2, 5, 0, 800, 3⟩, [Effect.timeoutAdd 5 2]) := by
  decide

end P0

/-- Counterexample for claim C4: in `plasmacleaner.c` the repaint-timer
operation increments the offset without wrapping, so it can leave the
offset equal to the width.  The state below is reached from startup by a
draw at width 2 followed by two timer firings; its offset equals its
positive width, refuting "no operation ever leaves the offset at or above
the current width while width is positive". -/
theorem claim4_counterexample :
    PC.ReachT ⟨some 1, 2, 2, 2, 3, 2⟩
      [Effect.timeoutAdd 2000 2, Effect.patternCreate 1, Effect.queueDraw,
       Effect.queueDraw]
    ∧ 0 < (⟨some 1, 2, 2, 2, 3, 2⟩ : PC.data_t).last_width
    ∧ ¬ (⟨some 1, 2, 2, 2, 3, 2⟩ : PC.data_t).x
        < (⟨some 1, 2, 2, 2, 3, 2⟩ : PC.data_t).last_width := by
  refine ⟨?_, by decide, by decide⟩
  have hd : PC.on_draw 2 PC.init
      = some (⟨some 1, 2, 0, 2, 3, 2⟩,
              [Effect.timeoutAdd 2000 2, Effect.patternCreate 1]) := by decide
  have h1 := PC.ReachT.draw PC.ReachT.base hd
  rw [List.nil_append] at h1
  have ht1 : PC.on_draw_timer ⟨some 1, 2, 0, 2, 3, 2⟩
      = (⟨some 1, 2, 1, 2, 3, 2⟩, [Effect.queueDraw]) := by decide
  have h2 := PC.ReachT.timer h1 ht1
  have ht2 : PC.on_draw_timer ⟨some 1, 2, 1, 2, 3, 2⟩
      = (⟨some 1, 2, 2, 2, 3, 2⟩, [Effect.queueDraw]) := by decide
  have h3 := PC.ReachT.timer h2 ht2
  simpa using h3

/-- Claim C4 amended: in the `part_000` variant the invariant
`offsetPixels < width` (whenever `width > 0`) holds in every reachable
state, all operations preserving it; in the `plasmacleaner.c` variant the
repaint timer increments the offset without wrapping and can leave it equal
to the width, and the invariant is re-established by the modulo in every
paint: after any successful `on_draw` the offset is below the stored
width. -/
theorem claim4_amended_invariant :
    (∀ d : P0.data_t, P0.Reach d → 0 < d.width → d.x < d.width)
    ∧ (∀ (w : Nat) (d d' : PC.data_t) (e : List Effect),
        PC.on_draw w d = some (d', e) → d'.x < d'.last_width) := by
  constructor
  · intro d hreach hpos
    exact (P0.reach_inv hreach).2.1 hpos
  · intro w d d' e heq
    unfold PC.on_draw at heq
    split at heq
    · exact absurd heq (by simp)
    · next hw =>
      dsimp only at heq
      rw [Option.some.injEq, Prod.mk.injEq] at heq
      obtain ⟨hd, -⟩ := heq
      subst hd
      show (PC.rebuild w d).1.x % w < w
      exact Nat.mod_lt _ (Nat.pos_of_ne_zero hw)

/-- Witness for the amended C4: a reachable `part_000` state at width 800
satisfies the invariant, and a concrete `plasmacleaner.c` draw leaves the
offset below the width. -/
theorem claim4_witness :
    (⟨1, 2, 5, 0, 800, 3⟩ : P0.data_t).x < (⟨1, 2, 5, 0, 800, 3⟩ : P0.data_t).width
    ∧ (⟨some 1, 2, 0, 2, 3, 2⟩ : PC.data_t).x
        < (⟨some 1, 2, 0, 2, 3, 2⟩ : PC.data_t).last_width := by
  constructor
  · exact claim4_amended_invariant.1 ⟨1, 2, 5, 0, 800, 3⟩
      (P0.Reach.draw P0.Reach.base P0.first_draw_800) (by decide)
  · exact claim4_amended_invariant.2 2 PC.init ⟨some 1, 2, 0, 2, 3, 2⟩
      [Effect.timeoutAdd 2000 2, Effect.patternCreate 1] (by decide)

/-- Claim C6: a paint event reporting the same width as currently stored is
a no-op on the pattern and the repaint timer.  In `plasmacleaner.c` the
width-change block is skipped: no pattern or timer effects are emitted and
the pattern and timeout id are untouched.  In the `part_000` variant, in
every reachable state the stored interval matches the stored width, so a
draw at the stored width emits no effects and leaves the whole state
unchanged. -/
theorem claim6_same_width_noop :
    (∀ (d : PC.data_t) (w : Nat), 0 < w → d.last_width = w →
      ∃ d', PC.on_draw w d = some (d', [])
        ∧ d'.pattern = d.pattern ∧ d'.draw_timeout_id = d.draw_timeout_id
        ∧ d'.next_source_id = d.next_source_id
        ∧ d'.next_pattern_id = d.next_pattern_id)
    ∧ (∀ (d : P0.data_t) (w : Nat), P0.Reach d → 0 < w → d.width = w →
      P0.on_draw w d = some (d, [])) := by
  constructor
  · intro d w hw hlw
    unfold PC.on_draw
    rw [if_neg (by omega)]
    have hr : PC.rebuild w d = (d, []) := by
      unfold PC.rebuild
      rw [if_neg (by omega)]
    dsimp only
    rw [hr]
    exact ⟨_, rfl, rfl, rfl, rfl, rfl⟩
  · intro d w hreach hw hweq
    have hsync := (P0.reach_inv hreach).2.2 (by omega)
    rw [hweq] at hsync
    unfold P0.on_draw
    rw [if_neg (by omega)]
    have hu : P0.update_draw_timeout w d = (d, []) := by
      unfold P0.update_draw_timeout
      rw [if_neg (not_ne_iff.mpr hsync)]
    have hs : P0.scale_x w d = d := by
      unfold P0.scale_x
      rw [if_neg (not_ne_iff.mpr hweq)]
    dsimp only
    rw [hu]
    dsimp only
    rw [hs]

/-- Witness for C6 at width 800 for both variants. -/
theorem claim6_witness :
    (∃ d', PC.on_draw 800 ⟨some 1, 2, 5, 800, 3, 2⟩ = some (d', [])
      ∧ d'.pattern = (⟨some 1, 2, 5, 800, 3, 2⟩ : PC.data_t).pattern
      ∧ d'.draw_timeout_id = (⟨some 1, 2, 5, 800, 3, 2⟩ : PC.data_t).draw_timeout_id
      ∧ d'.next_source_id = (⟨some 1, 2, 5, 800, 3, 2⟩ : PC.data_t).next_source_id
      ∧ d'.next_pattern_id = (⟨some 1, 2, 5, 800, 3, 2⟩ : PC.data_t).next_pattern_id)
    ∧ P0.on_draw 800 ⟨1, 2, 5, 0, 800, 3⟩ = some (⟨1, 2, 5, 0, 800, 3⟩, []) :=
  ⟨claim6_same_width_noop.1 ⟨some 1, 2, 5, 800, 3, 2⟩ 800 (by decide) rfl,
   claim6_same_width_noop.2 ⟨1, 2, 5, 0, 800, 3⟩ 800
     (P0.Reach.draw P0.Reach.base P0.first_draw_800) (by decide) rfl⟩

/-- Claim C7: for any width, the gradient pattern has exactly four colour
stops, at offsets `0, BAR_FRACTION, BAR_FRACTION, 1` in non-decreasing
order with `BAR_FRACTION = 3/8`; the stops at offset 0 and at the first
`BAR_FRACTION` carry the light band colour, the stops at the second
`BAR_FRACTION` and at 1 carry the dark colour, and the two distinct colours
meet exactly at the fraction boundary.  This holds both for the per-width
pattern of `plasmacleaner.c` (white on black) and for the unit pattern of
the `part_000` variant (blue-tinted white on black). -/
theorem claim7_gradient_stops (w : Nat) :
    (PC.build_pattern w).stops.length = 4
    ∧ (PC.build_pattern w).stops.map ColorStop.offset
        = [0, BAR_FRACTION, BAR_FRACTION, 1]
    ∧ List.Chain' (fun a b => a.offset ≤ b.offset) (PC.build_pattern w).stops
    ∧ BAR_FRACTION = 3 / 8
    ∧ (∃ light dark : ℚ × ℚ × ℚ, light ≠ dark
        ∧ (PC.build_pattern w).stops.map (fun s => (s.red, s.green, s.blue))
            = [light, light, dark, dark])
    ∧ P0.pattern.stops.length = 4
    ∧ P0.pattern.stops.map ColorStop.offset = [0, BAR_FRACTION, BAR_FRACTION, 1]
    ∧ List.Chain' (fun a b => a.offset ≤ b.offset) P0.pattern.stops
    ∧ (∃ light dark : ℚ × ℚ × ℚ, light ≠ dark
        ∧ P0.pattern.stops.map (fun s => (s.red, s.green, s.blue))
            = [light, light, dark, dark]) :=
  ⟨rfl, rfl,
   by
     simp only [PC.build_pattern, List.chain'_cons, List.chain'_singleton, and_true]
     norm_num [BAR_FRACTION],
   rfl,
   ⟨(1, 1, 1), (0, 0, 0), by norm_num [Prod.ext_iff], rfl⟩,
   rfl, rfl,
   by
     simp only [P0.pattern, List.chain'_cons, List.chain'_singleton, and_true]
     norm_num [BAR_FRACTION],
   ⟨(BAR_COLOUR_R, BAR_COLOUR_G, BAR_COLOUR_B), (0, 0, 0),
    by norm_num [BAR_COLOUR_R, BAR_COLOUR_G, BAR_COLOUR_B, Prod.ext_iff], rfl⟩⟩

/-- Claim C8: a key press (or pointer-button press) at any time triggers
the shutdown sequence: the repaint timer is removed, the gradient pattern
is destroyed, the main loop quits, the idle-suppression timeout is removed,
and the process exits with status 0.  In `plasmacleaner.c` the `destroy`
handler releases the timer and the pattern; in the `part_000` variant the
handler releases the timer and `main` destroys the pattern after the
loop. -/
theorem claim8_shutdown :
    (∀ (d : PC.data_t) (sst p : Nat), 0 < d.draw_timeout_id → d.pattern = some p →
      (PC.press_and_exit d sst).2.2 = 0
      ∧ (PC.press_and_exit d sst).2.1
          = [Effect.sourceRemove d.draw_timeout_id, Effect.patternDestroy p,
             Effect.quit, Effect.sourceRemove sst]
      ∧ (PC.press_and_exit d sst).1.draw_timeout_id = 0
      ∧ (PC.press_and_exit d sst).1.pattern = none)
    ∧ (∀ (d : P0.data_t) (sst : Nat), 0 < d.draw_timeout_id →
      (P0.press_and_exit d sst).2.2 = 0
      ∧ (P0.press_and_exit d sst).2.1
          = [Effect.sourceRemove d.draw_timeout_id, Effect.quit,
             Effect.sourceRemove sst, Effect.patternDestroy d.pattern]
      ∧ (P0.press_and_exit d sst).1.draw_timeout_id = 0) := by
  constructor
  · intro d sst p hid hpat
    obtain ⟨hfst, hsnd⟩ := PC.free_spec d
    unfold PC.press_and_exit PC.on_button_or_key_press
    dsimp only
    rw [hfst, hsnd, hpat, if_pos (show d.draw_timeout_id ≠ 0 by omega)]
    exact ⟨rfl, by simp, rfl, rfl⟩
  · intro d sst hid
    have hsnd : (P0.free_draw_timeout d).2 = [Effect.sourceRemove d.draw_timeout_id] := by
      unfold P0.free_draw_timeout
      rw [if_pos (show d.draw_timeout_id ≠ 0 by omega)]
    unfold P0.press_and_exit P0.on_button_or_key_press
    dsimp only
    rw [P0.free_draw_timeout_fst, hsnd]
    exact ⟨rfl, by simp, rfl⟩

/-- Witness for C8 with live resources: repaint timer id 2, pattern 1 and
the idle-suppression timeout id 1. -/
theorem claim8_witness :
    ((PC.press_and_exit ⟨some 1, 2, 5, 800, 3, 2⟩ 1).2.2 = 0
      ∧ (PC.press_and_exit ⟨some 1, 2, 5, 800, 3, 2⟩ 1).2.1
          = [Effect.sourceRemove 2, Effect.patternDestroy 1, Effect.quit,
             Effect.sourceRemove 1]
      ∧ (PC.press_and_exit ⟨some 1, 2, 5, 800, 3, 2⟩ 1).1.draw_timeout_id = 0
      ∧ (PC.press_and_exit ⟨some 1, 2, 5, 800, 3, 2⟩ 1).1.pattern = none)
    ∧ ((P0.press_and_exit ⟨1, 2, 5, 400, 800, 3⟩ 1).2.2 = 0
      ∧ (P0.press_and_exit ⟨1, 2, 5, 400, 800, 3⟩ 1).2.1
          = [Effect.sourceRemove 2, Effect.quit, Effect.sourceRemove 1,
             Effect.patternDestroy 1]
      ∧ (P0.press_and_exit ⟨1, 2, 5, 400, 800, 3⟩ 1).1.draw_timeout_id = 0) :=
  ⟨claim8_shutdown.1 ⟨some 1, 2, 5, 800, 3, 2⟩ 1 1 (by decide) rfl,
   claim8_shutdown.2 ⟨1, 2, 5, 400, 800, 3⟩ 1 (by decide)⟩

/-- Counterexample for claim C9: when the display is unavailable, the
handler's `assert(display)` fails and the process aborts (modelled as
`none`); there is no continuing outcome, so the failure is not a logged
continue or a silent no-op. -/
theorem claim9_counterexample :
    on_screensaver_suppression_timer none = none
    ∧ (on_screensaver_suppression_timer none).isSome = false :=
  ⟨rfl, rfl⟩

/-- Claim C9 amended: each firing of the idle-suppression timer is
best-effort only while the display handle exists: it then issues the
zero-displacement pointer warp and keeps running (returns `TRUE`)
regardless of any effect of the injection; when the display is unavailable
the assertion fails and the program aborts rather than logging or
no-opping. -/
theorem claim9_amended_best_effort :
    (∀ display : Nat, on_screensaver_suppression_timer (some display)
        = some [Effect.warpPointer 0 0])
    ∧ on_screensaver_suppression_timer none = none :=
  ⟨fun _ => rfl, rfl⟩

/-- Claim C10: `free_draw_timeout_and_pattern` is idempotent — after one
call the timeout id is 0 and the pattern is null, so a second call releases
nothing and changes nothing — and along every reachable execution of
`plasmacleaner.c` no source id and no pattern identity is ever released
twice; likewise the `part_000` helper `free_draw_timeout` zeroes the id and
a second call is a no-op. -/
theorem claim10_no_double_release :
    (∀ d : PC.data_t,
      (PC.free_draw_timeout_and_pattern d).1.draw_timeout_id = 0
      ∧ (PC.free_draw_timeout_and_pattern d).1.pattern = none
      ∧ PC.free_draw_timeout_and_pattern (PC.free_draw_timeout_and_pattern d).1
          = ((PC.free_draw_timeout_and_pattern d).1, []))
    ∧ (∀ (d : PC.data_t) (tr : List Effect), PC.ReachT d tr →
        (PC.removedIds tr).Nodup ∧ (PC.destroyedPatternIds tr).Nodup)
    ∧ (∀ d : P0.data_t,
      (P0.free_draw_timeout d).1.draw_timeout_id = 0
      ∧ P0.free_draw_timeout (P0.free_draw_timeout d).1
          = ((P0.free_draw_timeout d).1, [])) := by
  refine ⟨?_, ?_, ?_⟩
  · intro d
    obtain ⟨hfst, -⟩ := PC.free_spec d
    exact ⟨by rw [hfst], by rw [hfst], PC.free_idem d⟩
  · intro d tr h
    obtain ⟨n1, n2, -, -, -, -⟩ := PC.traceInv_reach h
    exact ⟨n1, n2⟩
  · intro d
    refine ⟨by rw [P0.free_draw_timeout_fst], ?_⟩
    rw [P0.free_draw_timeout_fst]
    unfold P0.free_draw_timeout
    simp

/-- Witness for C10 at the initial state and the empty trace. -/
theorem claim10_witness :
    (PC.free_draw_timeout_and_pattern PC.init).1.draw_timeout_id = 0
    ∧ (PC.removedIds []).Nodup ∧ (PC.destroyedPatternIds []).Nodup :=
  ⟨(claim10_no_double_release.1 PC.init).1,
   claim10_no_double_release.2.1 PC.init [] PC.ReachT.base⟩
